import Mathlib

/-!
Verification of the git-fs FUSE filesystem (src/git-fs.c) against its
natural-language specification.  The C program is shallowly embedded:

* git objects (trees, blobs, submodule commits, unknown objects) become the
  inductive `GitNode`; a libgit2 tree is a list of entries
  `(name, filemode, object)`, and `git_tree_entry_bypath` becomes `bypath`.
* a `gitfs_entry` (type tag + union) becomes the inductive `GitfsEntry` with
  one constructor per `gitfs_entry_type`.
* heap effects that matter to the claims (which `free`-style calls run) are
  made explicit: every releasing function returns the list of `FreeAction`s
  it performs, in program order.
* machine integers are modelled as `Nat`/`Int`, with the C conversions made
  explicit where they are observable: the `size_t` wrap of `size - 1` in
  `gitfs_readlink` and of `offset + size` in `gitfs_read` are `% 2^64`, and
  the `size_t`-to-`int` truncation on `gitfs_read`'s `return size` line is
  `toCInt` (low 32 bits, reinterpreted as two's-complement).
* external-failure paths that the claims do not touch (ENOMEM from `calloc`,
  EIO from a corrupt object store) are not modelled: the object store is
  assumed consistent, as the spec assumes (immutability, deterministic
  typing, stable byte content).
-/

/-- errno ENOENT, returned by the lookup paths as `-errEnoent`. -/
def errEnoent : Int := 2

/-- errno EIO. -/
def errEio : Int := 5

/-- errno ENOMEM. -/
def errEnomem : Int := 12

/-- GIT_OID_HEXSZ for SHA-1 object ids: 40 hex characters. -/
def GIT_OID_HEXSZ : Nat := 40

/-- 2^64, the modulus of `size_t` arithmetic. -/
def U64 : Nat := 18446744073709551616

/-- 2^32, the modulus of 32-bit arithmetic. -/
def U32 : Nat := 4294967296

/-- The C conversion of a `size_t` value to `int`, as on the `return size;`
line of `gitfs_read`: keep the low 32 bits and reinterpret them as a
two's-complement signed value. -/
def toCInt (n : Nat) : Int :=
  if n % U32 < 2147483648 then ((n % U32 : Nat) : Int)
  else ((n % U32 : Nat) : Int) - (U32 : Int)

/-- C macro S_ISREG: the file-type bits (S_IFMT = 0o170000) equal S_IFREG. -/
def S_ISREG (m : Nat) : Bool := m &&& 0o170000 == 0o100000

/-- C macro S_ISLNK: the file-type bits equal S_IFLNK. -/
def S_ISLNK (m : Nat) : Bool := m &&& 0o170000 == 0o120000

/-- A git object as seen through libgit2: a tree is a list of entries
`(name, filemode, object)`; a blob carries its raw bytes; `commit` stands for
a submodule (gitlink) entry; `other` for any unknown object type. -/
inductive GitNode where
  | tree (entries : List (String × Nat × GitNode))
  | blob (content : List Nat)
  | commit
  | other

/-- A `git_tree_entry`: name, filemode, and the referenced object. -/
abbrev TreeEnt := String × Nat × GitNode

/-- The tree reference held by a GITFS_DIR entry.  `root` models the pointer
alias `e->object.tree == d->tree` created by the short-circuit in
`gitfs_lookup_git_entry`; `owned` models a reference freshly returned by
`git_tree_entry_to_object` (content addressing is acyclic, so a subtree
lookup never returns the root tree pointer itself). -/
inductive TreeRef where
  | root
  | owned (entries : List TreeEnt)

/-- `gitfs_entry`: the type tag plus the active member of the union.
`file` keeps the `git_tree_entry` metadata (name, filemode) together with the
blob bytes; `oid` is a GITFS_OID registry entry holding its rendered text. -/
inductive GitfsEntry where
  | dir (t : TreeRef)
  | file (te : String × Nat) (blob : List Nat)
  | oid (content : List Nat)

instance : Inhabited GitfsEntry := ⟨.oid []⟩

/-- One deallocation performed by the program.  `freeTreeOwned` is
`git_tree_free` on an entry-owned subtree, `freeRootTree` is `git_tree_free`
on `d->tree`, `freeStruct` is `free(e)` on a heap-allocated `gitfs_entry`,
`freeOidBuf i` is `free(d->oid_entries[i].object.oid)`. -/
inductive FreeAction where
  | freeTreeOwned
  | freeRootTree
  | freeTreeEntry
  | freeBlob
  | freeStruct
  | freeRepo
  | freeOidBuf (i : Nat)
deriving DecidableEq

/-- `struct gitfs_data`: the mounted snapshot plus the virtual (oid) file
registry.  `oid_paths` and `oid_entries` are the parallel arrays; the C
`oid_entry_count` is their length. -/
structure GitfsData where
  no_oid_files : Bool
  commit_time : Int
  tree : List TreeEnt
  oid_paths : List String
  oid_entries : List GitfsEntry

/-- Name lookup inside one tree level (libgit2 entry lookup by name). -/
def entryLookup (ents : List TreeEnt) (s : String) : Option TreeEnt :=
  ents.find? (fun te => te.1 == s)

/-- `git_tree_entry_bypath`: walk the slash-separated segments, descending
through subtrees; any missing segment or non-tree intermediate fails. -/
def bypath : List TreeEnt → List String → Option TreeEnt
  | _, [] => none
  | ents, [s] => entryLookup ents s
  | ents, s :: s2 :: rest =>
    match entryLookup ents s with
    | some (_, _, GitNode.tree sub) => bypath sub (s2 :: rest)
    | _ => none

/-- Split a list of characters on `/` (the classic strtok-style split). -/
def splitSegsAux : List Char → List Char → List (List Char)
  | [], acc => [acc.reverse]
  | c :: rest, acc =>
    if c = '/' then acc.reverse :: splitSegsAux rest []
    else splitSegsAux rest (c :: acc)

/-- Segments of `path + 1` (the path with its single leading `/` dropped),
as handed to `git_tree_entry_bypath`. -/
def pathSegments (p : String) : List String :=
  (splitSegsAux (p.data.drop 1) []).map (fun cs => String.mk cs)

/-- `gitfs_lookup_git_entry`.  The exact root path short-circuits to a
Directory entry aliasing `d->tree`; otherwise the path is resolved by
`bypath` and the terminal object's type picks the entry variant; submodule
(`commit`) and unknown objects are deliberately `-ENOENT`. -/
def gitfs_lookup_git_entry (d : GitfsData) (path : String) : Except Int GitfsEntry :=
  if path == "/" then .ok (.dir .root)
  else
    match bypath d.tree (pathSegments path) with
    | none => .error (-errEnoent)
    | some (name, mode, node) =>
      match node with
      | .tree sub => .ok (.dir (.owned sub))
      | .blob c => .ok (.file (name, mode) c)
      | .commit => .error (-errEnoent)
      | .other => .error (-errEnoent)

/-- The scan loop of `gitfs_lookup_oid_entry`: first index whose stored path
compares equal to `path`, counting from `i`. -/
def lookupOidIdx : List String → String → Nat → Option Nat
  | [], _, _ => none
  | p :: ps, path, i => if path == p then some i else lookupOidIdx ps path (i + 1)

/-- `gitfs_lookup_oid_entry`: returns the index of the matching registry slot
(the C code returns the pointer `&d->oid_entries[i]`). -/
def gitfs_lookup_oid_entry (d : GitfsData) (path : String) : Except Int Nat :=
  match lookupOidIdx d.oid_paths path 0 with
  | some i => .ok i
  | none => .error (-errEnoent)

/-- The pointer stored in `fi->fh`: either a freshly `calloc`ed entry from
`gitfs_lookup_git_entry` or a pointer into the static `d->oid_entries`. -/
inductive EntryRef where
  | fresh (e : GitfsEntry)
  | registry (i : Nat)

/-- Dereference an `EntryRef` to the `gitfs_entry` value it points at. -/
def derefEntry (d : GitfsData) : EntryRef → GitfsEntry
  | .fresh e => e
  | .registry i => d.oid_entries.getD i default

/-- `gitfs_lookup_entry`: git lookup first; on `-ENOENT` fall back to the
magic oid paths. -/
def gitfs_lookup_entry (d : GitfsData) (path : String) : Except Int EntryRef :=
  match gitfs_lookup_git_entry d path with
  | .ok e => .ok (.fresh e)
  | .error rv =>
    if rv = -errEnoent then
      match gitfs_lookup_oid_entry d path with
      | .ok i => .ok (.registry i)
      | .error rv2 => .error rv2
    else .error rv

/-- `gitfs_entry_free`: the deallocations performed, in order.  For a DIR
entry the tree is freed only when `e->object.tree != d->tree` (the `.owned`
case); GITFS_OID entries return early and free nothing, not even the struct
(they live in the static `d->oid_entries` array). -/
def gitfs_entry_free : GitfsEntry → List FreeAction
  | .dir .root => [.freeStruct]
  | .dir (.owned _) => [.freeTreeOwned, .freeStruct]
  | .file _ _ => [.freeTreeEntry, .freeBlob, .freeStruct]
  | .oid _ => []

/-- `gitfs_entry_free` applied through an `EntryRef` pointer. -/
def gitfs_entry_free_ref (d : GitfsData) (r : EntryRef) : List FreeAction :=
  gitfs_entry_free (derefEntry d r)

/-- `gitfs_open`: store the looked-up entry in `fi->fh`; on failure the
handle stays null (the lookup writes 0 to `*out`). -/
def gitfs_open (d : GitfsData) (path : String) : Option EntryRef × Int :=
  match gitfs_lookup_entry d path with
  | .ok r => (some r, 0)
  | .error rv => (none, rv)

/-- `gitfs_release`: free the entry behind `fi->fh` when it is non-null;
always returns 0. -/
def gitfs_release (d : GitfsData) (fh : Option EntryRef) : List FreeAction × Int :=
  match fh with
  | none => ([], 0)
  | some r => (gitfs_entry_free_ref d r, 0)

/-- `gitfs_destroy` at mount teardown (steady state: tree and repo are
open): free the root tree, the repository, and every oid buffer. -/
def gitfs_destroy (d : GitfsData) : List FreeAction :=
  [.freeRootTree, .freeRepo] ++ (List.range d.oid_paths.length).map .freeOidBuf

/-- The fields of `struct stat` that `gitfs_getattr` fills in. -/
structure StatBuf where
  st_mode : Nat
  st_nlink : Nat
  st_size : Nat
  st_uid : Nat
  st_gid : Nat
  st_atime : Int
  st_mtime : Int
  st_ctime : Int
deriving DecidableEq

/-- `gitfs_getattr`: resolve the path, fill the stat buffer from the entry
variant, release the entry. -/
def gitfs_getattr (d : GitfsData) (path : String) : Except Int StatBuf :=
  match gitfs_lookup_entry d path with
  | .error rv => .error rv
  | .ok r =>
    match derefEntry d r with
    | .dir _ =>
      .ok { st_mode := 0o40755, st_nlink := 2, st_size := 4096, st_uid := 0, st_gid := 0,
            st_atime := d.commit_time, st_mtime := d.commit_time, st_ctime := d.commit_time }
    | .file te c =>
      .ok { st_mode := if S_ISLNK te.2 then 0o120777 else te.2, st_nlink := 1,
            st_size := c.length, st_uid := 0, st_gid := 0,
            st_atime := d.commit_time, st_mtime := d.commit_time, st_ctime := d.commit_time }
    | .oid _ =>
      .ok { st_mode := 0o100444, st_nlink := 1, st_size := GIT_OID_HEXSZ + 1, st_uid := 0,
            st_gid := 0, st_atime := d.commit_time, st_mtime := d.commit_time,
            st_ctime := d.commit_time }

/-- The clipping and copy half of `gitfs_read` (lines 411-420), with the C
integer conversions explicit: the comparison `offset + size > blob_size` is
computed on the `size_t` sum, which wraps mod 2^64; `memcpy(buf,
blob + offset, size)` then copies the resulting `size` bytes — with a
wrap-inducing `size` this skips the clipping and overruns, exactly as the C
does — and `return size` truncates the `size_t` count to `int`. -/
def gitfs_read_copy (blob : List Nat) (blob_size : Nat) (buf : Nat → Nat)
    (size offset : Nat) : Int × (Nat → Nat) :=
  let clipped := if offset ≥ blob_size then 0
                 else if (offset + size) % U64 > blob_size then blob_size - offset
                 else size
  (toCInt clipped, fun i => if i < clipped then blob.getD (offset + i) 0 else buf i)

/-- `gitfs_read`: the switch on the entry type.  GITFS_FILE requires
`S_ISREG` of the stored filemode, else `-EIO`; GITFS_OID serves the rendered
oid text with `blob_size = GIT_OID_HEXSZ + 1`; anything else is `-EIO`. -/
def gitfs_read (e : GitfsEntry) (buf : Nat → Nat) (size offset : Nat) : Int × (Nat → Nat) :=
  match e with
  | .file te c =>
    if S_ISREG te.2 then gitfs_read_copy c c.length buf size offset
    else (-errEio, buf)
  | .oid c => gitfs_read_copy c (GIT_OID_HEXSZ + 1) buf size offset
  | .dir _ => (-errEio, buf)

/-- The backing content and advertised length that `gitfs_read` serves for an
entry, when the entry passes the type/mode gate. -/
def entryReadContent : GitfsEntry → Option (List Nat × Nat)
  | .file te c => if S_ISREG te.2 then some (c, c.length) else none
  | .oid c => some (c, GIT_OID_HEXSZ + 1)
  | .dir _ => none

/-- One readdir filler loop: starting at index `offset` into `L`, emit
`(L[offset], offset + 1)` pairs while the buffer still has capacity; when the
filler reports the buffer full (capacity 0) the current entry is not added
and the loop stops. -/
def fillFrom (L : List String) (offset : Nat) : Nat → List (String × Nat)
  | 0 => []
  | cap + 1 =>
    if offset < L.length then (L.getD offset "", offset + 1) :: fillFrom L (offset + 1) cap
    else []

/-- The `+ 1` pointer step on an oid path: drop the leading slash. -/
def stripSlash (p : String) : String := String.mk (p.data.drop 1)

/-- One call of `gitfs_readdir`'s loops with buffer capacity `cap`: the first
loop walks the tree children from `offset`; if the path is the root, the
second loop continues at offsets past `entry_count` through the oid paths
(leading slash stripped), passing `offset + 1` as each next offset.  A full
buffer after the first loop leaves `cap - em1.length = 0`, so the second loop
then emits nothing, exactly like the early `return 0` in the C code. -/
def gitfs_readdir_call (children oidPaths : List String) (isRoot : Bool)
    (offset cap : Nat) : List (String × Nat) :=
  if isRoot then
    fillFrom children offset cap ++
      (fillFrom (oidPaths.map stripSlash)
          ((offset + (fillFrom children offset cap).length) - children.length)
          (cap - (fillFrom children offset cap).length)).map
        (fun p => (p.1, p.2 + children.length))
  else fillFrom children offset cap

/-- Names of a tree's direct children in enumeration order
(`git_tree_entry_byindex` + `git_tree_entry_name`). -/
def treeNames (ents : List TreeEnt) : List String := ents.map (fun te => te.1)

/-- The tree object a DIR entry's reference points at. -/
def derefTree (d : GitfsData) : TreeRef → List TreeEnt
  | .root => d.tree
  | .owned t => t

/-- `gitfs_readdir` on an open entry: only directories are listable. -/
def gitfs_readdir (d : GitfsData) (e : GitfsEntry) (path : String)
    (offset cap : Nat) : Except Int (List (String × Nat)) :=
  match e with
  | .dir ref => .ok (gitfs_readdir_call (treeNames (derefTree d ref)) d.oid_paths
      (path == "/") offset cap)
  | _ => .error (-errEio)

/-- One hex digit as rendered by `git_oid_fmt` (lowercase). -/
def hexChar (n : Nat) : Nat := if n < 10 then 48 + n else 87 + n

/-- `git_oid_fmt`: each oid byte becomes two lowercase hex characters. -/
def git_oid_fmt : List Nat → List Nat
  | [] => []
  | b :: bs => hexChar (b / 16) :: hexChar (b % 16) :: git_oid_fmt bs

/-- `gitfs_init_oid_entry`: skip when oid files are disabled; sanity-check
the static two-slot array; otherwise append the path and an OID entry whose
buffer is 40 hex characters followed by a newline, with no terminating NUL. -/
def gitfs_init_oid_entry (d : GitfsData) (path : String) (oid : List Nat) :
    Except Int GitfsData :=
  if d.no_oid_files then .ok d
  else if d.oid_paths.length == 2 then .error (-errEnomem)
  else .ok { d with
    oid_paths := d.oid_paths ++ [path],
    oid_entries := d.oid_entries ++ [.oid (git_oid_fmt oid ++ [10])] }

/-- What the mounted revision resolved to in `main`: a commit (with its id
and its tree's id) or a bare tree. -/
inductive RevObj where
  | commitObj (commitId treeId : List Nat)
  | treeObj (treeId : List Nat)

/-- The oid-registry population performed by `main`: for a commit revision,
`/.git-fs-commit-id` inside the switch, then `/.git-fs-tree-id` after it;
for a bare tree revision only `/.git-fs-tree-id`. -/
def main_setup_oids (d : GitfsData) (rev : RevObj) : Except Int GitfsData :=
  match rev with
  | .commitObj cid tid =>
    match gitfs_init_oid_entry d "/.git-fs-commit-id" cid with
    | .error rv => .error rv
    | .ok d1 => gitfs_init_oid_entry d1 "/.git-fs-tree-id" tid
  | .treeObj tid => gitfs_init_oid_entry d "/.git-fs-tree-id" tid

/-- Bootstrap events, in the vocabulary of the claim: pre-confinement store
open and revision resolution happen in `main`; confinement (`chroot` +
`chdir`), the store reopen and the tree lookup happen in `gitfs_init`;
`serveEv` is the dispatch loop entering steady state. -/
inductive BootEv where
  | openRepoPre
  | revparseEv
  | chrootEv
  | chdirEv
  | openRepoPost
  | lookupTreeEv
  | serveEv
deriving DecidableEq

/-- `gitfs_init` after `fuse_main` takes over: chroot into the repository,
chdir to the new root, reopen the repository, look the tree up again.  On
any failure it runs `gitfs_destroy`, calls `fuse_exit` and sets
`d->retval = 1`; the returned flag is whether init succeeded. -/
def gitfs_init_run (chrootOk chdirOk openPostOk lookupOk : Bool) : List BootEv × Bool :=
  if !chrootOk then ([.chrootEv], false)
  else if !chdirOk then ([.chrootEv, .chdirEv], false)
  else if !openPostOk then ([.chrootEv, .chdirEv, .openRepoPost], false)
  else if !lookupOk then ([.chrootEv, .chdirEv, .openRepoPost, .lookupTreeEv], false)
  else ([.chrootEv, .chdirEv, .openRepoPost, .lookupTreeEv], true)

/-- `fuse_main`: runs `gitfs_init`; only when init succeeded does the
dispatch loop enter steady state (a failed init has already called
`fuse_exit`, so the loop unwinds without serving).  The `Int` is `d->retval`
after the loop (0 from `calloc`, or 1 stored by the failing init). -/
def fuse_main_run (chrootOk chdirOk openPostOk lookupOk : Bool) : List BootEv × Int :=
  let r := gitfs_init_run chrootOk chdirOk openPostOk lookupOk
  if r.2 then (r.1 ++ [.serveEv], 0) else (r.1, 1)

/-- The bootstrap path of `main`: open the repository and resolve the
revision while still unconfined (an unresolvable revision exits 1 before
`fuse_main` is ever entered), then hand over to `fuse_main` and finally
return `d->retval`. -/
def main_run (revOk chrootOk chdirOk openPostOk lookupOk : Bool) : List BootEv × Int :=
  if !revOk then ([.openRepoPre, .revparseEv], 1)
  else
    let r := fuse_main_run chrootOk chdirOk openPostOk lookupOk
    ([.openRepoPre, .revparseEv] ++ r.1, r.2)

/-- The per-open handle states of section 4.6 of the spec: `empty` is a
null `fi->fh` (open never succeeded), `resolved` holds the stored entry,
`released` is terminal. -/
inductive HandleState where
  | empty
  | resolved (r : EntryRef)
  | released

/-- Operations the dispatch layer can aim at one open handle. -/
inductive HandleOp where
  | hopen (path : String)
  | hread (size offset : Nat)
  | hrelease
deriving DecidableEq

/-- One step of the per-handle state machine.  `gitfs_open` fills the handle
on success and leaves it empty on failure; `gitfs_release` frees through the
stored pointer (or does nothing on a null handle); reads do not free; no
operation is possible on a released handle (FUSE issues release exactly once,
last). -/
def handleStep (d : GitfsData) : HandleState → HandleOp → Option (HandleState × List FreeAction)
  | .empty, .hopen p =>
    match gitfs_open d p with
    | (some r, _) => some (.resolved r, [])
    | (none, _) => some (.empty, [])
  | .empty, .hrelease => some (.empty, (gitfs_release d none).1)
  | .empty, .hread _ _ => none
  | .resolved _, .hopen _ => none
  | .resolved r, .hread _ _ => some (.resolved r, [])
  | .resolved r, .hrelease => some (.released, (gitfs_release d (some r)).1)
  | .released, _ => none

/-- Run a sequence of operations on one handle, accumulating the frees;
`none` when the sequence is not a legal FUSE trace. -/
def runHandleTrace (d : GitfsData) : HandleState → List HandleOp → Option (HandleState × List FreeAction)
  | s, [] => some (s, [])
  | s, op :: ops =>
    match handleStep d s op with
    | none => none
    | some (s', fs) =>
      match runHandleTrace d s' ops with
      | none => none
      | some (s'', fs') => some (s'', fs ++ fs')

/-- Path-based operations of the steady-state filesystem that resolve and
then release an entry: a getattr, or a whole open/…/release cycle (whose net
frees are those of its release). -/
inductive FsOp where
  | statOp (path : String)
  | cycleOp (path : String)

/-- The frees one `FsOp` performs. -/
def gitfs_op_frees (d : GitfsData) : FsOp → List FreeAction
  | .statOp p =>
    match gitfs_lookup_entry d p with
    | .ok r => gitfs_entry_free_ref d r
    | .error _ => []
  | .cycleOp p =>
    match gitfs_lookup_entry d p with
    | .ok r => gitfs_entry_free_ref d r
    | .error _ => []

/-- The frees of a whole interleaving of steady-state operations. -/
def gitfs_trace_frees (d : GitfsData) : List FsOp → List FreeAction
  | [] => []
  | op :: ops => gitfs_op_frees d op ++ gitfs_trace_frees d ops

/-- A concrete 20-byte object id used by witnesses. -/
def exOid : List Nat := List.replicate 20 171

/-- A concrete snapshot tree used by witnesses: a subdirectory with one
file, a symlink whose target is `docs`, a submodule entry and an unknown
object. -/
def exTree : List TreeEnt :=
  [("docs", 0o40000, .tree [("readme.txt", 0o100644, .blob [104, 105])]),
   ("link", 0o120000, .blob [100, 111, 99, 115]),
   ("sub", 0o160000, .commit),
   ("weird", 0, .other)]

/-- A concrete mounted `gitfs_data` used by witnesses. -/
def dEx : GitfsData :=
  { no_oid_files := false,
    commit_time := 0,
    tree := exTree,
    oid_paths := ["/.git-fs-tree-id"],
    oid_entries := [.oid (git_oid_fmt exOid ++ [10])] }

/-! Helper lemmas about the read clipping. -/

/-- When the `size_t` sum `offset + size` does not wrap, the clipping chain
of `gitfs_read` computes the saturating minimum. -/
theorem gitfs_read_clipped_eq_min (L size offset : Nat) (h : offset + size < U64) :
    (if offset ≥ L then 0 else if (offset + size) % U64 > L then L - offset else size) =
      min size (L - offset) := by
  rw [Nat.mod_eq_of_lt h]
  split_ifs with h1 h2 <;> omega

/-- `toCInt` is the identity on counts that fit in a C `int`. -/
theorem toCInt_eq_of_lt (n : Nat) (h : n < 2147483648) : toCInt n = (n : Int) := by
  have hm : n % U32 = n := Nat.mod_eq_of_lt (by unfold U32; omega)
  simp only [toCInt, hm]
  rw [if_pos h]

/-- Full characterisation of `gitfs_read_copy` for calls whose `size_t` sum
does not wrap and whose advertised length fits in a C `int`: the returned
count is the clipped length, exactly that prefix of the destination is
overwritten with the blob bytes starting at `offset`, the rest of the
destination is untouched, and the return value is never negative. -/
theorem gitfs_read_copy_spec (c : List Nat) (L : Nat) (buf : Nat → Nat) (size offset : Nat)
    (hwrap : offset + size < U64) (hint : L < 2147483648) :
    (gitfs_read_copy c L buf size offset).1 = ((min size (L - offset) : Nat) : Int) ∧
    (∀ i, i < min size (L - offset) →
      (gitfs_read_copy c L buf size offset).2 i = c.getD (offset + i) 0) ∧
    (∀ i, min size (L - offset) ≤ i → (gitfs_read_copy c L buf size offset).2 i = buf i) ∧
    0 ≤ (gitfs_read_copy c L buf size offset).1 := by
  have hclip := gitfs_read_clipped_eq_min L size offset hwrap
  have hto := toCInt_eq_of_lt (min size (L - offset)) (by omega)
  refine ⟨?_, ?_, ?_, ?_⟩ <;>
    simp only [gitfs_read_copy, hclip, hto]
  · intro i hi
    rw [if_pos hi]
  · intro i hi
    rw [if_neg (by omega)]
  · exact Int.natCast_nonneg _

/-- The modelled integer conversions reproduce the C behaviour on a
wrap-inducing length: at `blob_size = 41`, `offset = 5`,
`size = 2^64 - 5`, the wrapped sum is 0, so the clipping is skipped, the
copy overruns the clipped range, and the `int`-truncated return of this
gate-passing read is `-5` — the same value as `-EIO`. -/
theorem gitfs_read_wrap_eio :
    (gitfs_read (GitfsEntry.oid (git_oid_fmt exOid ++ [10])) (fun _ => 0) (U64 - 5) 5).1 =
      -errEio ∧
    (5 + (U64 - 5)) % U64 = 0 := by
  constructor <;> decide

/-! Claims C1 and C5: the read path. -/

/-- C1 counterexample.  The claim quantifies over every open File entry, but
a File entry whose stored mode is a symlink (0o120000) is rejected by the
`S_ISREG` gate before the clipping code runs: at offset 5, at or beyond the
content length 2, the read returns `-EIO` instead of the claimed
zero-byte success. -/
theorem gitfs_read_clip_claim_false :
    (gitfs_read (GitfsEntry.file ("l", 0o120000) [97, 98]) (fun _ => 0) 10 5).1 = -errEio ∧
    -errEio < (0 : Int) := ⟨rfl, by decide⟩

/-- C1 (amended to entries that pass the type/mode gate of `gitfs_read` —
File entries with a regular mode, and VirtualFile entries — and to reads
whose `size_t` sum `offset + size` does not wrap mod 2^64 and whose content
length fits in a C `int`; these cover every call the kernel makes, and the
wrap restriction is forced because a wrapping `size` makes the C skip the
clipping, overrun, and return an `int`-truncated count).  For backing
content `c` served with advertised length `L`, `read` returns
`min length (L - offset)` bytes (so 0 at or beyond `L`, truncated to
`L - offset` when overlong, `length` otherwise), never fails, the copied
prefix of the destination equals the content bytes starting at `offset`,
and nothing outside the clipped range is written. -/
theorem gitfs_read_clip_amended (e : GitfsEntry) (buf : Nat → Nat) (size offset : Nat)
    (c : List Nat) (L : Nat) (hc : entryReadContent e = some (c, L))
    (hlen : c.length = L) (hwrap : offset + size < U64) (hint : L < 2147483648) :
    (gitfs_read e buf size offset).1 = ((min size (L - offset) : Nat) : Int) ∧
    (∀ i, i < min size (L - offset) →
      (gitfs_read e buf size offset).2 i = c.getD (offset + i) 0) ∧
    (∀ i, min size (L - offset) ≤ i → (gitfs_read e buf size offset).2 i = buf i) ∧
    0 ≤ (gitfs_read e buf size offset).1 := by
  cases e with
  | dir t => simp [entryReadContent] at hc
  | file te c0 =>
    by_cases hr : S_ISREG te.2
    · rw [entryReadContent, if_pos hr, Option.some.injEq, Prod.mk.injEq] at hc
      obtain ⟨rfl, rfl⟩ := hc
      simpa [gitfs_read, hr] using
        gitfs_read_copy_spec c0 c0.length buf size offset hwrap hint
    · rw [entryReadContent, if_neg hr] at hc
      exact absurd hc (by simp)
  | oid c0 =>
    rw [entryReadContent, Option.some.injEq, Prod.mk.injEq] at hc
    obtain ⟨rfl, rfl⟩ := hc
    simpa [gitfs_read] using
      gitfs_read_copy_spec c0 (GIT_OID_HEXSZ + 1) buf size offset hwrap hint

/-- C1 amended, witnessed at a concrete regular file of length 3 read with
offset 1 and length 10: two bytes come back. -/
theorem gitfs_read_clip_amended_witness :
    (entryReadContent (GitfsEntry.file ("f", 0o100644) [1, 2, 3]) = some ([1, 2, 3], 3) ∧
      ([1, 2, 3] : List Nat).length = 3 ∧ 1 + 10 < U64 ∧ 3 < 2147483648) ∧
    ((gitfs_read (GitfsEntry.file ("f", 0o100644) [1, 2, 3]) (fun _ => 0) 10 1).1 =
        ((min 10 (3 - 1) : Nat) : Int) ∧
      (∀ i, i < min 10 (3 - 1) →
        (gitfs_read (GitfsEntry.file ("f", 0o100644) [1, 2, 3]) (fun _ => 0) 10 1).2 i =
          ([1, 2, 3] : List Nat).getD (1 + i) 0) ∧
      (∀ i, min 10 (3 - 1) ≤ i →
        (gitfs_read (GitfsEntry.file ("f", 0o100644) [1, 2, 3]) (fun _ => 0) 10 1).2 i =
          (fun _ => (0 : Nat)) i) ∧
      0 ≤ (gitfs_read (GitfsEntry.file ("f", 0o100644) [1, 2, 3]) (fun _ => 0) 10 1).1) :=
  ⟨⟨rfl, rfl, by decide, by decide⟩,
    gitfs_read_clip_amended _ _ 10 1 [1, 2, 3] 3 rfl rfl (by decide) (by decide)⟩

/-- C5 counterexample.  A File entry whose stored mode is a symlink fails
the mode check of `gitfs_read` with `-EIO`, although the claim says a
symlink-mode File entry does not fail it. -/
theorem gitfs_read_modecheck_claim_false :
    (gitfs_read (GitfsEntry.file ("l2", 0o120000) [97, 98, 99]) (fun _ => 0) 4 0).1 = -errEio ∧
    -errEio ≠ (0 : Int) := ⟨rfl, by decide⟩

/-- C5 (amended).  For reads whose `size_t` sum `offset + size` does not
wrap mod 2^64 and whose content length fits in a C `int` — every call the
kernel makes; with wrap-inducing arguments even the `int`-truncated return
of a gate-passing read can equal `-EIO`, see `gitfs_read_wrap_eio` —
`gitfs_read` on a File entry fails with `-EIO` exactly when the stored
filemode is not a regular-file mode, which includes symlink modes, and a
read of a VirtualFile (oid) entry never fails the mode check. -/
theorem gitfs_read_modecheck_amended (te : String × Nat) (c oc : List Nat)
    (buf : Nat → Nat) (size offset : Nat)
    (hwrap : offset + size < U64) (hL : c.length < 2147483648) :
    ((gitfs_read (.file te c) buf size offset).1 = -errEio ↔ S_ISREG te.2 = false) ∧
    0 ≤ (gitfs_read (.oid oc) buf size offset).1 := by
  constructor
  · by_cases hr : S_ISREG te.2
    · have h4 := (gitfs_read_copy_spec c c.length buf size offset hwrap hL).2.2.2
      simp only [gitfs_read, hr, if_true]
      constructor
      · intro h
        rw [h] at h4
        exact absurd h4 (by decide)
      · intro h
        exact absurd h (by decide)
    · simp [gitfs_read, hr]
  · exact (gitfs_read_copy_spec oc (GIT_OID_HEXSZ + 1) buf size offset hwrap
      (by decide)).2.2.2

/-- C5 amended, witnessed at a regular-mode file and an oid entry with
non-wrapping arguments. -/
theorem gitfs_read_modecheck_amended_witness :
    ((0 + 3 < U64) ∧ ([7] : List Nat).length < 2147483648) ∧
    (((gitfs_read (GitfsEntry.file ("f", 0o100644) [7]) (fun _ => 0) 3 0).1 = -errEio ↔
        S_ISREG (("f", (0o100644 : Nat)).2) = false) ∧
      0 ≤ (gitfs_read (GitfsEntry.oid [1]) (fun _ => 0) 3 0).1) :=
  ⟨⟨by decide, by decide⟩,
    gitfs_read_modecheck_amended ("f", 0o100644) [7] [1] (fun _ => 0) 3 0
      (by decide) (by decide)⟩

/-! Claims C6 and C3: resolution of hidden object types, and root-tree
ownership. -/

/-- C6: when the terminal object of a non-root path is a submodule commit or
an unknown object type, `gitfs_lookup_git_entry` fails with `-ENOENT`
(the entry is invisible), and `-ENOENT` is not the `-EIO` failure. -/
theorem gitfs_lookup_hidden_notfound (d : GitfsData) (path name : String) (mode : Nat)
    (hroot : (path == "/") = false) :
    (bypath d.tree (pathSegments path) = some (name, mode, GitNode.commit) →
      gitfs_lookup_git_entry d path = .error (-errEnoent)) ∧
    (bypath d.tree (pathSegments path) = some (name, mode, GitNode.other) →
      gitfs_lookup_git_entry d path = .error (-errEnoent)) ∧
    (-errEnoent : Int) ≠ -errEio := by
  refine ⟨?_, ?_, by decide⟩ <;> intro h <;> simp [gitfs_lookup_git_entry, hroot, h]

/-- C6 witnessed on the concrete snapshot: `/sub` is a submodule (commit)
entry and resolves to `-ENOENT`. -/
theorem gitfs_lookup_hidden_notfound_witness :
    ((("/sub" : String) == "/") = false ∧
      bypath dEx.tree (pathSegments "/sub") = some ("sub", 0o160000, GitNode.commit)) ∧
    gitfs_lookup_git_entry dEx "/sub" = .error (-errEnoent) :=
  ⟨⟨by decide, rfl⟩,
    (gitfs_lookup_hidden_notfound dEx "/sub" "sub" 0o160000 (by decide)).1 rfl⟩

/-- C3: resolving the exact path `/` short-circuits to a Directory entry
aliasing the snapshot's root tree; freeing that entry performs no
`git_tree_free` at all (only the struct free); no entry release can ever
free the root tree, which is freed exactly once by `gitfs_destroy` at
teardown; and a Directory entry resolved to a proper subtree does free its
owned subtree reference exactly once on release. -/
theorem gitfs_root_borrow (d : GitfsData) :
    gitfs_lookup_git_entry d "/" = .ok (.dir .root) ∧
    derefTree d .root = d.tree ∧
    gitfs_entry_free (.dir .root) = [.freeStruct] ∧
    (∀ e, FreeAction.freeRootTree ∉ gitfs_entry_free e) ∧
    (gitfs_destroy d).count .freeRootTree = 1 ∧
    (∀ sub, (gitfs_entry_free (.dir (.owned sub))).count .freeTreeOwned = 1) ∧
    (∀ path sub, gitfs_lookup_git_entry d path = .ok (.dir (.owned sub)) →
      FreeAction.freeTreeOwned ∈ gitfs_entry_free (.dir (.owned sub))) := by
  refine ⟨rfl, rfl, rfl, ?_, ?_, ?_, ?_⟩
  · intro e
    cases e with
    | dir t => cases t <;> simp [gitfs_entry_free]
    | file te c => simp [gitfs_entry_free]
    | oid c => simp [gitfs_entry_free]
  · have h2 : List.count FreeAction.freeRootTree
        ((List.range d.oid_paths.length).map FreeAction.freeOidBuf) = 0 :=
      List.count_eq_zero.mpr (by
        intro hmem
        obtain ⟨i, _, hi⟩ := List.mem_map.mp hmem
        exact FreeAction.noConfusion hi)
    simp only [gitfs_destroy]
    rw [List.count_append, h2]
    decide
  · intro sub
    show ([FreeAction.freeTreeOwned, .freeStruct]).count .freeTreeOwned = 1
    decide
  · intro path sub _
    show FreeAction.freeTreeOwned ∈ [FreeAction.freeTreeOwned, .freeStruct]
    decide

/-- C3 witnessed on the concrete snapshot: `/docs` resolves to an owned
subtree whose release performs the subtree free. -/
theorem gitfs_root_borrow_witness :
    gitfs_lookup_git_entry dEx "/docs" =
      .ok (.dir (.owned [("readme.txt", 0o100644, GitNode.blob [104, 105])])) ∧
    FreeAction.freeTreeOwned ∈
      gitfs_entry_free (.dir (.owned [("readme.txt", 0o100644, GitNode.blob [104, 105])])) :=
  ⟨rfl, (gitfs_root_borrow dEx).2.2.2.2.2.2 "/docs" _ rfl⟩

/-! Claim C2: directory listing, buffer-full resumption. -/

/-- A hex digit rendered by `git_oid_fmt` is never a NUL byte. -/
theorem hexChar_ne_zero (n : Nat) : hexChar n ≠ 0 := by
  unfold hexChar
  split <;> omega

/-- `git_oid_fmt` renders two characters per oid byte. -/
theorem git_oid_fmt_length (l : List Nat) : (git_oid_fmt l).length = 2 * l.length := by
  induction l with
  | nil => rfl
  | cons b bs ih =>
    simp only [git_oid_fmt, List.length_cons, ih]
    omega

/-- `git_oid_fmt` output never contains a NUL byte. -/
theorem git_oid_fmt_ne_zero (l : List Nat) : (0 : Nat) ∉ git_oid_fmt l := by
  induction l with
  | nil => simp [git_oid_fmt]
  | cons b bs ih =>
    simp only [git_oid_fmt, List.mem_cons, not_or]
    exact ⟨fun h => hexChar_ne_zero _ h.symm, fun h => hexChar_ne_zero _ h.symm, ih⟩

/-- A concrete empty-registry `gitfs_data`, as `main` sees it before the
oid entries are installed. -/
def dEx0 : GitfsData :=
  { no_oid_files := false,
    commit_time := 0,
    tree := exTree,
    oid_paths := [],
    oid_entries := [] }

/-- C7: with oid files enabled and the registry empty, `main` installs — for
a commit revision — the commit-id entry then the tree-id entry, and — for a
bare tree revision — only the tree-id entry; every installed buffer is
exactly the 40 hex characters of the corresponding hash followed by one
newline (41 bytes, ending in the newline, containing no NUL), and `getattr`
reports size `GIT_OID_HEXSZ + 1` for every virtual (oid) entry. -/
theorem gitfs_oid_entries_spec (d0 : GitfsData) (cid tid : List Nat)
    (hno : d0.no_oid_files = false) (hp : d0.oid_paths = []) (he : d0.oid_entries = [])
    (hcl : cid.length = 20) (htl : tid.length = 20) :
    main_setup_oids d0 (.commitObj cid tid) =
      .ok { d0 with
        oid_paths := ["/.git-fs-commit-id", "/.git-fs-tree-id"],
        oid_entries := [.oid (git_oid_fmt cid ++ [10]), .oid (git_oid_fmt tid ++ [10])] } ∧
    main_setup_oids d0 (.treeObj tid) =
      .ok { d0 with
        oid_paths := ["/.git-fs-tree-id"],
        oid_entries := [.oid (git_oid_fmt tid ++ [10])] } ∧
    ("/.git-fs-commit-id" : String) ∉ ["/.git-fs-tree-id"] ∧
    (git_oid_fmt cid ++ [10]).length = GIT_OID_HEXSZ + 1 ∧
    (git_oid_fmt tid ++ [10]).length = GIT_OID_HEXSZ + 1 ∧
    (git_oid_fmt cid ++ [10]).getLast? = some 10 ∧
    (git_oid_fmt tid ++ [10]).getLast? = some 10 ∧
    (0 : Nat) ∉ git_oid_fmt cid ++ [10] ∧
    (0 : Nat) ∉ git_oid_fmt tid ++ [10] ∧
    (∀ d path r c st, gitfs_lookup_entry d path = .ok r → derefEntry d r = .oid c →
      gitfs_getattr d path = .ok st → st.st_size = GIT_OID_HEXSZ + 1) := by
  obtain ⟨nf, ct, tr, ops, oes⟩ := d0
  simp only at hno hp he
  subst hno hp he
  refine ⟨rfl, rfl, by decide, ?_, ?_, List.getLast?_concat _, List.getLast?_concat _,
    ?_, ?_, ?_⟩
  · rw [List.length_append, git_oid_fmt_length, hcl]
    rfl
  · rw [List.length_append, git_oid_fmt_length, htl]
    rfl
  · simp only [List.mem_append, not_or]
    exact ⟨git_oid_fmt_ne_zero cid, by simp⟩
  · simp only [List.mem_append, not_or]
    exact ⟨git_oid_fmt_ne_zero tid, by simp⟩
  · intro d path r c st h1 h2 h3
    simp only [gitfs_getattr, h1, h2] at h3
    cases h3
    rfl

/-- C7 witnessed on a concrete commit revision built over the empty
registry. -/
theorem gitfs_oid_entries_spec_witness :
    (dEx0.no_oid_files = false ∧ dEx0.oid_paths = [] ∧ dEx0.oid_entries = [] ∧
      exOid.length = 20) ∧
    main_setup_oids dEx0 (.commitObj exOid exOid) =
      .ok { dEx0 with
        oid_paths := ["/.git-fs-commit-id", "/.git-fs-tree-id"],
        oid_entries := [.oid (git_oid_fmt exOid ++ [10]), .oid (git_oid_fmt exOid ++ [10])] } :=
  ⟨⟨rfl, rfl, rfl, by decide⟩,
    (gitfs_oid_entries_spec dEx0 exOid exOid rfl rfl rfl (by decide) (by decide)).1⟩

/-! Claims C8 and C9: handle lifecycle and bootstrap ordering. -/

/-- The frees of one entry release contain no duplicates. -/
theorem gitfs_entry_free_nodup (e : GitfsEntry) : (gitfs_entry_free e).Nodup := by
  cases e with
  | dir t => cases t <;> simp [gitfs_entry_free]
  | file te c => simp [gitfs_entry_free]
  | oid c => simp [gitfs_entry_free]

/-- On a released handle no trace continues: an accepted trace from the
released state is empty and frees nothing. -/
theorem runHandleTrace_released (d : GitfsData) :
    ∀ (ops : List HandleOp) (s : HandleState) (fs : List FreeAction),
      runHandleTrace d .released ops = some (s, fs) → fs = [] := by
  intro ops
  cases ops with
  | nil =>
    intro s fs h
    simp only [runHandleTrace] at h
    cases h
    rfl
  | cons op ops =>
    intro s fs h
    simp only [runHandleTrace, handleStep] at h
    exact Option.noConfusion h

/-- An accepted trace from a resolved handle frees either nothing or the
stored entry's resources, once. -/
theorem runHandleTrace_resolved (d : GitfsData) (r : EntryRef) :
    ∀ (ops : List HandleOp) (s : HandleState) (fs : List FreeAction),
      runHandleTrace d (.resolved r) ops = some (s, fs) →
      fs = [] ∨ fs = gitfs_entry_free_ref d r := by
  intro ops
  induction ops with
  | nil =>
    intro s fs h
    simp only [runHandleTrace] at h
    cases h
    exact Or.inl rfl
  | cons op ops ih =>
    intro s fs h
    cases op with
    | hopen p =>
      simp only [runHandleTrace, handleStep] at h
      exact Option.noConfusion h
    | hread sz off =>
      simp only [runHandleTrace, handleStep] at h
      cases hrec : runHandleTrace d (.resolved r) ops with
      | none => rw [hrec] at h; cases h
      | some pr =>
        rw [hrec] at h
        cases h
        simpa using ih pr.1 pr.2 (by rw [hrec])
    | hrelease =>
      simp only [runHandleTrace, handleStep, gitfs_release] at h
      cases hrec : runHandleTrace d .released ops with
      | none => rw [hrec] at h; cases h
      | some pr =>
        rw [hrec] at h
        cases h
        have := runHandleTrace_released d ops pr.1 pr.2 (by rw [hrec])
        rw [this, List.append_nil]
        exact Or.inr rfl

/-- An accepted trace from an empty handle frees either nothing or exactly
one resolved entry's resources. -/
theorem runHandleTrace_empty (d : GitfsData) :
    ∀ (ops : List HandleOp) (s : HandleState) (fs : List FreeAction),
      runHandleTrace d .empty ops = some (s, fs) →
      fs = [] ∨ ∃ r, fs = gitfs_entry_free_ref d r := by
  intro ops
  induction ops with
  | nil =>
    intro s fs h
    simp only [runHandleTrace] at h
    cases h
    exact Or.inl rfl
  | cons op ops ih =>
    intro s fs h
    cases op with
    | hread sz off =>
      simp only [runHandleTrace, handleStep] at h
      exact Option.noConfusion h
    | hrelease =>
      simp only [runHandleTrace, handleStep, gitfs_release] at h
      cases hrec : runHandleTrace d .empty ops with
      | none => rw [hrec] at h; cases h
      | some pr =>
        rw [hrec] at h
        cases h
        simpa using ih pr.1 pr.2 (by rw [hrec])
    | hopen p =>
      simp only [runHandleTrace, handleStep] at h
      cases hop : gitfs_open d p with
      | mk fh rv =>
        rw [hop] at h
        cases fh with
        | none =>
          simp only at h
          cases hrec : runHandleTrace d .empty ops with
          | none => rw [hrec] at h; cases h
          | some pr =>
            rw [hrec] at h
            cases h
            simpa using ih pr.1 pr.2 (by rw [hrec])
        | some r =>
          simp only at h
          cases hrec : runHandleTrace d (.resolved r) ops with
          | none => rw [hrec] at h; cases h
          | some pr =>
            rw [hrec] at h
            cases h
            rcases runHandleTrace_resolved d r ops pr.1 pr.2 (by rw [hrec]) with h1 | h1 <;>
              rw [h1]
            · exact Or.inl rfl
            · exact Or.inr ⟨r, rfl⟩

/-- C8: release on a handle whose open never succeeded is a no-op that
succeeds; release on a resolved handle frees the stored entry's resources
exactly once (the free list is duplicate-free) and moves to the terminal
released state; no operation is possible from the released state; hence any
accepted trace of one handle frees at most one entry's resources, once. -/
theorem gitfs_handle_lifecycle (d : GitfsData) :
    (handleStep d .empty .hrelease = some (.empty, []) ∧ (gitfs_release d none).2 = 0) ∧
    (∀ r, handleStep d (.resolved r) .hrelease =
        some (.released, gitfs_entry_free_ref d r) ∧
      (gitfs_entry_free_ref d r).Nodup ∧ (gitfs_release d (some r)).2 = 0) ∧
    (∀ op, handleStep d .released op = none) ∧
    (∀ ops s fs, runHandleTrace d .empty ops = some (s, fs) →
      fs = [] ∨ ∃ r, fs = gitfs_entry_free_ref d r) := by
  refine ⟨⟨rfl, rfl⟩, ?_, ?_, runHandleTrace_empty d⟩
  · intro r
    exact ⟨rfl, gitfs_entry_free_nodup _, rfl⟩
  · intro op
    cases op <;> rfl

/-- C8 witnessed: an open of `/docs` followed by its release frees the
owned subtree and the entry struct, once each. -/
theorem gitfs_handle_lifecycle_witness :
    runHandleTrace dEx .empty [.hopen "/docs", .hrelease] =
      some (.released, [FreeAction.freeTreeOwned, FreeAction.freeStruct]) ∧
    ([FreeAction.freeTreeOwned, FreeAction.freeStruct] = [] ∨
      ∃ r, [FreeAction.freeTreeOwned, FreeAction.freeStruct] =
        gitfs_entry_free_ref dEx r) :=
  ⟨rfl, (gitfs_handle_lifecycle dEx).2.2.2 [.hopen "/docs", .hrelease] .released
    [FreeAction.freeTreeOwned, FreeAction.freeStruct] rfl⟩

/-- C9: the bootstrap performs, in exactly this order, pre-confinement store
open and revision resolution, then confinement (chroot + chdir), then the
post-confinement store reopen, then the tree lookup, and only then does the
dispatch loop enter steady state; and whenever confinement, the reopen or
the post-confinement lookup fails, the loop never enters steady state and
the process exit status is non-zero. -/
theorem gitfs_bootstrap_order :
    main_run true true true true true =
      ([.openRepoPre, .revparseEv, .chrootEv, .chdirEv, .openRepoPost, .lookupTreeEv,
        .serveEv], 0) ∧
    (∀ revOk chrootOk chdirOk openPostOk lookupOk : Bool,
      (chrootOk = false ∨ chdirOk = false ∨ openPostOk = false ∨ lookupOk = false) →
      BootEv.serveEv ∉ (main_run revOk chrootOk chdirOk openPostOk lookupOk).1 ∧
      (main_run revOk chrootOk chdirOk openPostOk lookupOk).2 ≠ 0) := by
  constructor
  · rfl
  · decide

/-- C9 witnessed: a failing chroot keeps the dispatch loop out of steady
state and exits non-zero. -/
theorem gitfs_bootstrap_order_witness :
    ((false : Bool) = false ∨ (true : Bool) = false ∨ (true : Bool) = false ∨
      (true : Bool) = false) ∧
    (BootEv.serveEv ∉ (main_run true false true true true).1 ∧
      (main_run true false true true true).2 ≠ 0) :=
  ⟨Or.inl rfl, gitfs_bootstrap_order.2 true false true true true (Or.inl rfl)⟩

/-! Claim C10: stability of the virtual (oid) entries. -/

/-- The registry scan returns an in-bounds index whose stored path is the
one looked up. -/
theorem lookupOidIdx_spec (p : String) :
    ∀ (ps : List String) (k i : Nat), lookupOidIdx ps p k = some i →
      k ≤ i ∧ i - k < ps.length ∧ ps.getD (i - k) "" = p := by
  intro ps
  induction ps with
  | nil =>
    intro k i h
    exact Option.noConfusion h
  | cons q qs ih =>
    intro k i h
    simp only [lookupOidIdx] at h
    by_cases hq : (p == q) = true
    · rw [if_pos hq] at h
      cases h
      have hpq : p = q := eq_of_beq hq
      refine ⟨Nat.le_refl _, by simp, ?_⟩
      simp [hpq]
    · rw [if_neg hq] at h
      obtain ⟨h1, h2, h3⟩ := ih (k + 1) i h
      refine ⟨by omega, by simp only [List.length_cons]; omega, ?_⟩
      have hik : i - k = (i - (k + 1)) + 1 := by omega
      rw [hik, List.getD_cons_succ]
      exact h3

/-- No entry release ever frees an oid buffer. -/
theorem gitfs_entry_free_no_oidbuf (e : GitfsEntry) (i : Nat) :
    FreeAction.freeOidBuf i ∉ gitfs_entry_free e := by
  cases e with
  | dir t => cases t <;> simp [gitfs_entry_free]
  | file te c => simp [gitfs_entry_free]
  | oid c => simp [gitfs_entry_free]

/-- No steady-state operation ever frees an oid buffer. -/
theorem gitfs_op_frees_no_oidbuf (d : GitfsData) (op : FsOp) (i : Nat) :
    FreeAction.freeOidBuf i ∉ gitfs_op_frees d op := by
  cases op with
  | statOp p =>
    cases hl : gitfs_lookup_entry d p with
    | ok r =>
      simp only [gitfs_op_frees, hl]
      exact gitfs_entry_free_no_oidbuf (derefEntry d r) i
    | error rv => simp [gitfs_op_frees, hl]
  | cycleOp p =>
    cases hl : gitfs_lookup_entry d p with
    | ok r =>
      simp only [gitfs_op_frees, hl]
      exact gitfs_entry_free_no_oidbuf (derefEntry d r) i
    | error rv => simp [gitfs_op_frees, hl]

/-- No interleaving of steady-state operations ever frees an oid buffer. -/
theorem gitfs_trace_frees_no_oidbuf (d : GitfsData) :
    ∀ (ops : List FsOp) (i : Nat), FreeAction.freeOidBuf i ∉ gitfs_trace_frees d ops := by
  intro ops
  induction ops with
  | nil => intro i; simp [gitfs_trace_frees]
  | cons op ops ih =>
    intro i
    simp only [gitfs_trace_frees, List.mem_append, not_or]
    exact ⟨gitfs_op_frees_no_oidbuf d op i, ih i⟩

/-- C10: a virtual-path lookup returns the index of the matching static
registry slot (so every lookup of the same path yields the same stored
entry, not a fresh allocation); releasing an oid entry frees nothing; no
steady-state operation sequence ever frees an oid buffer; and teardown
frees each oid buffer exactly once. -/
theorem gitfs_virtual_entry_stability (d : GitfsData) :
    (∀ p i, gitfs_lookup_oid_entry d p = .ok i →
      i < d.oid_paths.length ∧ d.oid_paths.getD i "" = p ∧
      (gitfs_lookup_git_entry d p = .error (-errEnoent) →
        gitfs_lookup_entry d p = .ok (.registry i))) ∧
    (∀ c, gitfs_entry_free (.oid c) = []) ∧
    (∀ ops i, FreeAction.freeOidBuf i ∉ gitfs_trace_frees d ops) ∧
    (∀ i, i < d.oid_paths.length → (gitfs_destroy d).count (.freeOidBuf i) = 1) := by
  refine ⟨?_, fun c => rfl, gitfs_trace_frees_no_oidbuf d, ?_⟩
  · intro p i h
    cases hli : lookupOidIdx d.oid_paths p 0 with
    | none =>
      rw [gitfs_lookup_oid_entry, hli] at h
      exact Except.noConfusion h
    | some j =>
      rw [gitfs_lookup_oid_entry, hli] at h
      cases h
      obtain ⟨_, h2, h3⟩ := lookupOidIdx_spec p d.oid_paths 0 i hli
      rw [Nat.sub_zero] at h2 h3
      refine ⟨h2, h3, ?_⟩
      intro hgit
      simp [gitfs_lookup_entry, hgit, gitfs_lookup_oid_entry, hli]
  · intro i hi
    have hpre : List.count (FreeAction.freeOidBuf i)
        [FreeAction.freeRootTree, FreeAction.freeRepo] = 0 :=
      List.count_eq_zero.mpr (by simp)
    have hinj : Function.Injective FreeAction.freeOidBuf := by
      intro a b hab
      cases hab
      rfl
    have hmem : FreeAction.freeOidBuf i ∈
        (List.range d.oid_paths.length).map FreeAction.freeOidBuf :=
      List.mem_map.mpr ⟨i, List.mem_range.mpr hi, rfl⟩
    have hnd : ((List.range d.oid_paths.length).map FreeAction.freeOidBuf).Nodup :=
      (List.nodup_range _).map hinj
    simp only [gitfs_destroy]
    rw [List.count_append, hpre, List.count_eq_one_of_mem hnd hmem]

/-- C10 witnessed: the tree-id path resolves to registry slot 0 of the
concrete snapshot, the git miss routes the full lookup to that same slot. -/
theorem gitfs_virtual_entry_stability_witness :
    (gitfs_lookup_oid_entry dEx "/.git-fs-tree-id" = .ok 0 ∧
      gitfs_lookup_git_entry dEx "/.git-fs-tree-id" = .error (-errEnoent)) ∧
    (0 < dEx.oid_paths.length ∧ dEx.oid_paths.getD 0 "" = "/.git-fs-tree-id" ∧
      gitfs_lookup_entry dEx "/.git-fs-tree-id" = .ok (.registry 0)) := by
  have h := ((gitfs_virtual_entry_stability dEx).1 "/.git-fs-tree-id" 0 rfl)
  exact ⟨⟨rfl, rfl⟩, h.1, h.2.1, h.2.2 rfl⟩
